import Mathlib

/-!
Shallow embedding of the multizone heater control core
(custom_components/multizone_heater/core.py and climate.py).

Temperatures, offsets and factors are modelled as rationals (ℚ); Python's
`round(x, 1)` is modelled as round-half-to-even at one decimal place, which
is CPython's behaviour on exactly representable inputs.
-/

namespace MZH

/-- Python `round` to the nearest integer, ties to even (banker's rounding).
`⌊q⌋ : ℤ` plays the role of the integer part; the three branches are
"fractional part below one half", "above one half", "exactly one half". -/
def roundHalfEven (q : ℚ) : ℤ :=
  let n := ⌊q⌋
  if q < (n : ℚ) + 1/2 then n
  else if (n : ℚ) + 1/2 < q then n + 1
  else if n % 2 = 0 then n else n + 1

/-- Python `round(x, 1)`: round to one decimal place, ties to even. -/
def round1 (q : ℚ) : ℚ := (roundHalfEven (q * 10) : ℚ) / 10

/-- `max(lo, min(hi, q))` — the clamp applied to the main target
(core.py line 128, climate.py line 797). -/
def clampQ (lo hi q : ℚ) : ℚ := max lo (min hi q)

/-- Python `min` of a non-empty list (left fold); junk value 0 on the empty
list, which the source never takes a `min` of. -/
def listMin : List ℚ → ℚ
  | [] => 0
  | x :: xs => xs.foldl min x

/-- Python `max` of a non-empty list (left fold); junk value 0 on the empty
list. -/
def listMax : List ℚ → ℚ
  | [] => 0
  | x :: xs => xs.foldl max x

/-- Python `sum` of a list. -/
def listSum (l : List ℚ) : ℚ := l.foldl (· + ·) 0

/-- HVAC mode: the source only distinguishes `"heat"` from `"cool"`. -/
inductive HvacMode where
  | heat
  | cool
deriving DecidableEq, Repr

/-- `ZoneData` from core.py. -/
structure ZoneData where
  name : String
  current_temp : Option ℚ
  target_temp : ℚ
  target_offset : ℚ
  target_offset_closing : ℚ
  is_valve_open : Bool
deriving DecidableEq, Repr

/-- Lower satisfaction bound (core.py lines 72-77). -/
def lowerBound (mode : HvacMode) (z : ZoneData) : ℚ :=
  match mode with
  | .heat => z.target_temp - z.target_offset
  | .cool => z.target_temp - z.target_offset_closing

/-- Upper satisfaction bound (core.py lines 72-77). -/
def upperBound (mode : HvacMode) (z : ZoneData) : ℚ :=
  match mode with
  | .heat => z.target_temp + z.target_offset_closing
  | .cool => z.target_temp + z.target_offset

/-- `needs_mode_action` for a reporting zone (core.py lines 82-97):
heat mode needs action iff below the lower bound (underheated), cool mode
iff above the upper bound (overheated). -/
def needsModeAction (mode : HvacMode) (z : ZoneData) (c : ℚ) : Bool :=
  match mode with
  | .heat => decide (c < lowerBound .heat z)
  | .cool => decide (upperBound .cool z < c)

/-- Per-zone compensation contribution (core.py lines 86-95). -/
def contribution (mode : HvacMode) (factor : ℚ) (z : ZoneData) (c : ℚ) : ℚ :=
  match mode with
  | .heat => z.target_temp + factor * (z.target_temp - c)
  | .cool => z.target_temp - factor * (c - z.target_temp)

/-- `zone_targets` accumulated by the loop: targets of all reporting zones,
in order (core.py lines 65-69). -/
def zoneTargetsOf (zones : List ZoneData) : List ℚ :=
  zones.filterMap (fun z => z.current_temp.map (fun _ => z.target_temp))

/-- Reporting zones that need action in the given mode, paired with their
current temperature, in order (core.py lines 82-97). -/
def zonesNeedingActionOf (mode : HvacMode) (zones : List ZoneData) :
    List (ZoneData × ℚ) :=
  zones.filterMap (fun z =>
    z.current_temp.bind (fun c =>
      if needsModeAction mode z c then some (z, c) else none))

/-- The slider interpolation of the holding branch
(core.py lines 112-122): `min → avg → max` of the given non-empty target
list as `weight` runs over 0→50→100. -/
def holdingInterp (zone_targets : List ℚ) (weight : ℚ) : ℚ :=
  let min_target := listMin zone_targets
  let max_target := listMax zone_targets
  let avg_target := listSum zone_targets / zone_targets.length
  if weight ≤ 50 then
    min_target + (avg_target - min_target) * (weight / 50)
  else
    avg_target + (max_target - avg_target) * ((weight - 50) / 50)

/-- `compute_main_target` from core.py: returns
`(desired_main_temp, is_holding_mode)`.

The per-zone loop of the source accumulates `zone_targets`,
`per_zone_desired_main` and `zones_needing_action` in list order; the two
latter lists are built in lockstep (one append each per needing zone), so
the source's truthiness test `zones_needing_action and per_zone_desired_main`
holds exactly when `zonesNeedingActionOf` is non-empty, and this embedding
branches on that list's shape. -/
def compute_main_target (zones : List ZoneData) (hvac_mode : HvacMode)
    (compensation_factor : ℚ) (all_satisfied_mode : ℚ)
    (main_min_temp main_max_temp : ℚ) : Option ℚ × Bool :=
  let needing := zonesNeedingActionOf hvac_mode zones
  let per_zone_desired_main :=
    needing.map (fun p => contribution hvac_mode compensation_factor p.1 p.2)
  match needing, zoneTargetsOf zones with
  | _ :: _, _ =>
    let d := if hvac_mode = .heat then listMax per_zone_desired_main
             else listMin per_zone_desired_main
    (some (clampQ main_min_temp main_max_temp (round1 d)), false)
  | [], t :: ts =>
    (some (clampQ main_min_temp main_max_temp
      (round1 (holdingInterp (t :: ts) all_satisfied_mode))), true)
  | [], [] => (none, false)

/-- The raw (un-rounded, un-clamped) aggregate of `compute_main_target`:
the value of `desired_main` at core.py line 124, before lines 125-128. -/
def rawMainTarget (zones : List ZoneData) (hvac_mode : HvacMode)
    (compensation_factor : ℚ) (all_satisfied_mode : ℚ) : Option ℚ :=
  let needing := zonesNeedingActionOf hvac_mode zones
  let per_zone_desired_main :=
    needing.map (fun p => contribution hvac_mode compensation_factor p.1 p.2)
  match needing, zoneTargetsOf zones with
  | _ :: _, _ =>
    some (if hvac_mode = .heat then listMax per_zone_desired_main
          else listMin per_zone_desired_main)
  | [], t :: ts => some (holdingInterp (t :: ts) all_satisfied_mode)
  | [], [] => none

/-- `per_zone_desired_main` of core.py (lines 86-97): the contribution list
of the zones needing action, in loop order. -/
def perZoneDesiredMain (mode : HvacMode) (factor : ℚ) (zones : List ZoneData) :
    List ℚ :=
  (zonesNeedingActionOf mode zones).map (fun p => contribution mode factor p.1 p.2)

/-! ### Embedding of climate.py -/

/-- A zone as seen by `MultizoneClimate` in climate.py: configuration dict plus
the live readings used by `_calculate_desired_main_target` and
`_async_control_valves`.  `current_temp` is `_get_zone_temperature(zone)`
(None when unavailable); `valve` is the configured `CONF_VALVE_SWITCH`
entity id (None when not configured); `target` is
`_get_zone_target_temperature(zone)`. -/
structure ClimateZone where
  name : String
  current_temp : Option ℚ
  valve : Option String
  target : ℚ
  target_offset : ℚ
  target_offset_closing : ℚ
deriving DecidableEq, Repr

/-- `_get_zone_satisfaction_bounds` (climate.py lines 654-676), lower bound. -/
def climLowerBound (mode : HvacMode) (z : ClimateZone) : ℚ :=
  match mode with
  | .heat => z.target - z.target_offset
  | .cool => z.target - z.target_offset_closing

/-- `_get_zone_satisfaction_bounds` (climate.py lines 654-676), upper bound. -/
def climUpperBound (mode : HvacMode) (z : ClimateZone) : ℚ :=
  match mode with
  | .heat => z.target + z.target_offset_closing
  | .cool => z.target + z.target_offset

/-- `needs_action` in `_calculate_desired_main_target` (climate.py line 752):
outside the satisfaction range on EITHER side, in both modes. -/
def climNeedsAction (mode : HvacMode) (z : ClimateZone) (c : ℚ) : Bool :=
  decide (c < climLowerBound mode z) || decide (climUpperBound mode z < c)

/-- Per-zone `zone_desired_main` in `_calculate_desired_main_target`
(climate.py lines 742-744): the heat-style compensation formula is used
for both modes (`deficit = zone_target - current_temp`). -/
def climContribution (factor : ℚ) (z : ClimateZone) (c : ℚ) : ℚ :=
  z.target + factor * (z.target - c)

/-- Zones not skipped by the loop of `_calculate_desired_main_target`
(climate.py lines 719-734): a current temperature is available and a valve
is configured; paired with the current temperature, in order. -/
def climReportingOf (zones : List ClimateZone) : List (ClimateZone × ℚ) :=
  zones.filterMap (fun z =>
    z.current_temp.bind (fun c =>
      if z.valve.isSome then some (z, c) else none))

/-- `zone_targets` of `_calculate_desired_main_target` (climate.py line 737). -/
def climTargetsOf (zones : List ClimateZone) : List ℚ :=
  (climReportingOf zones).map (fun p => p.1.target)

/-- Zones appended to `zones_needing_action`/`per_zone_desired_main`
(climate.py lines 764-766). -/
def climNeedingOf (mode : HvacMode) (zones : List ClimateZone) :
    List (ClimateZone × ℚ) :=
  (climReportingOf zones).filter (fun p => climNeedsAction mode p.1 p.2)

/-- `_calculate_desired_main_target` (climate.py lines 706-807): returns
`(desired_main, is_holding_mode)`.  The source's truthiness test
`zones_needing_action and per_zone_desired_main` (line 772) holds exactly
when `climNeedingOf` is non-empty (the two lists are appended in lockstep),
and `elif zone_targets:` (line 779) exactly when `climTargetsOf` is
non-empty. -/
def calcDesiredMainTarget (zones : List ClimateZone) (mode : HvacMode)
    (factor weight mn mx : ℚ) : Option ℚ × Bool :=
  let needing := climNeedingOf mode zones
  let per_zone_desired_main := needing.map (fun p => climContribution factor p.1 p.2)
  match needing, climTargetsOf zones with
  | _ :: _, _ =>
    let d := if mode = .heat then listMax per_zone_desired_main
             else listMin per_zone_desired_main
    (some (clampQ mn mx (round1 d)), false)
  | [], t :: ts =>
    (some (clampQ mn mx (round1 (holdingInterp (t :: ts) weight))), true)
  | [], [] => (none, false)

/-- The raw aggregate of `_calculate_desired_main_target`: `desired_main`
just before the round-and-clamp at climate.py lines 794-797. -/
def rawCalcDesiredMainTarget (zones : List ClimateZone) (mode : HvacMode)
    (factor weight : ℚ) : Option ℚ :=
  let needing := climNeedingOf mode zones
  let per_zone_desired_main := needing.map (fun p => climContribution factor p.1 p.2)
  match needing, climTargetsOf zones with
  | _ :: _, _ =>
    some (if mode = .heat then listMax per_zone_desired_main
          else listMin per_zone_desired_main)
  | [], t :: ts => some (holdingInterp (t :: ts) weight)
  | [], [] => none

/-! ### Valve decision engine (heat branch of `_async_control_valves`) -/

/-- Zone satisfaction status, `_get_zone_status` (climate.py lines 678-704). -/
inductive ZStatus where
  | underheated
  | overheated
  | satisfied
  | undercooled
deriving DecidableEq, Repr

/-- `_get_zone_status` (climate.py lines 691-704). -/
def zoneStatus (mode : HvacMode) (c lower upper : ℚ) : ZStatus :=
  match mode with
  | .heat =>
    if c < lower then .underheated
    else if upper < c then .overheated
    else .satisfied
  | .cool =>
    if upper < c then .overheated
    else if c < lower then .undercooled
    else .satisfied

/-- The per-zone valve decision of `_async_control_valves` in HEAT mode
(climate.py lines 862-920), including reopen suppression and physical close
anticipation.  `mem` is this zone's entry in `self._valve_no_reopen_until`
(`none` when the key is absent); the returned second component is the
entry after the pass (the source mutates the dict in place: deletion on
expiry at line 878, insertion at line 913). -/
def decideValveHeat (c lower upper zone_target : ℚ) (isHolding : Bool)
    (desiredMain : Option ℚ) (isOpen : Bool) (mem : Option ℚ)
    (now anticipation delay : ℚ) : Bool × Option ℚ :=
  match zoneStatus .heat c lower upper with
  | .underheated =>
    match isOpen, mem with
    | false, some t => if now < t then (false, some t) else (true, none)
    | _, _ => (true, mem)
  | .overheated => (false, mem)
  | _ =>
    -- satisfied (the heat branch of `_get_zone_status` never yields undercooled)
    let so : Bool :=
      if isHolding then true
      else match desiredMain with
        | some m => decide (m ≤ zone_target)
        | none => false
    if isOpen && so then
      if upper - anticipation ≤ c then
        if c < upper then (false, some (now + delay)) else (false, mem)
      else (so, mem)
    else (so, mem)

/-! ### Valve actuation scheduler (climate.py lines 954-1082) -/

/-- An actuation command of a control pass, in issue order.  `cancelPending`
models the cancellation of a previous `_delayed_valve_close_task`
(climate.py lines 1006-1011); `deferClose` models scheduling
`_async_delayed_valve_close` which sleeps `delay` and then turns the
valves off (climate.py lines 1054-1056 and 1178-1210). -/
inductive VCmd where
  | cancelPending
  | turnOn (valve : String)
  | turnOff (valve : String)
  | deferClose (delay : ℚ) (valves : List String)
deriving DecidableEq, Repr

def VCmd.isOpenCmd : VCmd → Bool
  | .turnOn _ => true
  | _ => false

def VCmd.isCloseCmd : VCmd → Bool
  | .turnOff _ => true
  | .deferClose _ _ => true
  | _ => false

/-- `current_valve_states.get(v)` with falsy default
(`dict.get` returns `None` for a missing key). -/
def lookupValve (cur : List (String × Bool)) (v : String) : Bool :=
  match cur.find? (fun p => p.1 = v) with
  | some p => p.2
  | none => false

/-- `valves_actually_turning_on` (climate.py line 1014). -/
def valvesActuallyTurningOn (toOn : List String) (cur : List (String × Bool)) :
    List String :=
  toOn.filter (fun v => !lookupValve cur v)

/-- `valves_actually_turning_off` (climate.py line 1032). -/
def valvesActuallyTurningOff (toOff : List String) (cur : List (String × Bool)) :
    List String :=
  toOff.filter (fun v => lookupValve cur v)

/-- `currently_open_count` (climate.py line 1036). -/
def currentlyOpenCount (cur : List (String × Bool)) : ℕ :=
  (cur.filter (fun p => p.2)).length

/-- `needs_delay` (climate.py lines 1042-1045). -/
def needsDelay (toOn : List String) (cur : List (String × Bool))
    (minOpen : ℕ) : Bool :=
  !(valvesActuallyTurningOn toOn cur).isEmpty
    && currentlyOpenCount cur ≤ minOpen

/-- The ordered command plan of one control pass (climate.py lines
1002-1082): cancel any pending deferred close, then Phase 1 (all opens),
then Phase 2 (closes — immediate, or one deferred batch when
`needs_delay`). -/
def schedulePlan (toOn toOff : List String) (cur : List (String × Bool))
    (minOpen : ℕ) (delay : ℚ) : List VCmd :=
  let actOn := valvesActuallyTurningOn toOn cur
  let actOff := valvesActuallyTurningOff toOff cur
  VCmd.cancelPending :: (actOn.map VCmd.turnOn ++
    (if actOff.isEmpty then []
     else if needsDelay toOn cur minOpen then [VCmd.deferClose delay actOff]
     else actOff.map VCmd.turnOff))

/-! ### Upstream setpoint publication gate (`_async_update_main_climate`) -/

/-- `should_update` in `_async_update_main_climate` (climate.py lines
593-601): compare against the read-back main-climate target when it is
parseable, falling back to the cached `_last_main_target` (publish when no
cache exists) otherwise. -/
def shouldUpdateMain (desired : ℚ) (currentMain lastSent : Option ℚ)
    (threshold : ℚ) : Bool :=
  match currentMain with
  | some c => decide (threshold ≤ |desired - c|)
  | none =>
    match lastSent with
    | none => true
    | some l => decide (threshold ≤ |desired - l|)

/-! ### Properties of rounding and clamping -/

theorem roundHalfEven_ge_floor (q : ℚ) : ⌊q⌋ ≤ roundHalfEven q := by
  simp only [roundHalfEven]
  split_ifs <;> omega

theorem roundHalfEven_le_floor_add_one (q : ℚ) : roundHalfEven q ≤ ⌊q⌋ + 1 := by
  simp only [roundHalfEven]
  split_ifs <;> omega

theorem abs_roundHalfEven_sub_le (q : ℚ) : |(roundHalfEven q : ℚ) - q| ≤ 1/2 := by
  simp only [roundHalfEven]
  have h1 : ((⌊q⌋ : ℤ) : ℚ) ≤ q := Int.floor_le q
  have h2 : q < ((⌊q⌋ : ℤ) : ℚ) + 1 := Int.lt_floor_add_one q
  split_ifs with ha hb hc <;>
    (rw [abs_le]; constructor <;> push_cast <;> linarith)

theorem roundHalfEven_mono {q₁ q₂ : ℚ} (h : q₁ ≤ q₂) :
    roundHalfEven q₁ ≤ roundHalfEven q₂ := by
  have hf : ⌊q₁⌋ ≤ ⌊q₂⌋ := Int.floor_le_floor h
  rcases lt_or_eq_of_le hf with hlt | heq
  · calc roundHalfEven q₁ ≤ ⌊q₁⌋ + 1 := roundHalfEven_le_floor_add_one q₁
      _ ≤ ⌊q₂⌋ := by omega
      _ ≤ roundHalfEven q₂ := roundHalfEven_ge_floor q₂
  · simp only [roundHalfEven]
    rw [← heq]
    split_ifs <;> first | omega | linarith

theorem round1_mono {q₁ q₂ : ℚ} (h : q₁ ≤ q₂) : round1 q₁ ≤ round1 q₂ := by
  unfold round1
  have := @roundHalfEven_mono (q₁ * 10) (q₂ * 10) (by linarith)
  have : ((roundHalfEven (q₁ * 10) : ℤ) : ℚ) ≤ ((roundHalfEven (q₂ * 10) : ℤ) : ℚ) := by
    exact_mod_cast this
  linarith

theorem abs_round1_sub_le (q : ℚ) : |round1 q - q| ≤ 1/20 := by
  have h := abs_roundHalfEven_sub_le (q * 10)
  have heq : round1 q - q = (((roundHalfEven (q * 10) : ℤ) : ℚ) - q * 10) / 10 := by
    rw [round1]; ring
  rw [heq, abs_div]
  have h10 : |(10 : ℚ)| = 10 := by norm_num
  rw [h10]
  linarith

theorem clampQ_mono (lo hi : ℚ) {a b : ℚ} (h : a ≤ b) :
    clampQ lo hi a ≤ clampQ lo hi b := by
  unfold clampQ
  exact max_le_max le_rfl (min_le_min le_rfl h)

theorem clampQ_le (lo hi q : ℚ) (h : lo ≤ hi) : clampQ lo hi q ≤ hi := by
  unfold clampQ
  exact max_le h (min_le_left hi q)

theorem le_clampQ (lo hi q : ℚ) : lo ≤ clampQ lo hi q := le_max_left lo _

theorem abs_clampQ_sub_le {lo hi a : ℚ} (ha1 : lo ≤ a) (ha2 : a ≤ hi) (q : ℚ) :
    |clampQ lo hi q - a| ≤ |q - a| := by
  unfold clampQ
  rcases le_total hi q with h1 | h1
  · rw [min_eq_left h1, max_eq_right (le_trans ha1 ha2)]
    rw [abs_of_nonneg (by linarith), abs_of_nonneg (by linarith)]
    linarith
  · rw [min_eq_right h1]
    rcases le_total q lo with h2 | h2
    · rw [max_eq_left h2, abs_of_nonpos (by linarith), abs_of_nonpos (by linarith)]
      linarith
    · rw [max_eq_right h2]

/-! ### Properties of `listMin`, `listMax`, `listSum` -/

theorem foldl_min_le_init (xs : List ℚ) (a : ℚ) : xs.foldl min a ≤ a := by
  induction xs generalizing a with
  | nil => exact le_refl a
  | cons x xs ih =>
      exact le_trans (ih (min a x)) (min_le_left a x)

theorem foldl_min_le_mem (xs : List ℚ) (a : ℚ) : ∀ x ∈ xs, xs.foldl min a ≤ x := by
  induction xs generalizing a with
  | nil => intro x hx; cases hx
  | cons y ys ih =>
      intro x hx
      rcases List.mem_cons.mp hx with rfl | hx
      · exact le_trans (foldl_min_le_init ys (min a x)) (min_le_right a x)
      · exact ih (min a y) x hx

theorem init_le_foldl_max (xs : List ℚ) (a : ℚ) : a ≤ xs.foldl max a := by
  induction xs generalizing a with
  | nil => exact le_refl a
  | cons x xs ih =>
      exact le_trans (le_max_left a x) (ih (max a x))

theorem mem_le_foldl_max (xs : List ℚ) (a : ℚ) : ∀ x ∈ xs, x ≤ xs.foldl max a := by
  induction xs generalizing a with
  | nil => intro x hx; cases hx
  | cons y ys ih =>
      intro x hx
      rcases List.mem_cons.mp hx with rfl | hx
      · exact le_trans (le_max_right a x) (init_le_foldl_max ys (max a x))
      · exact ih (max a y) x hx

theorem listMin_le {l : List ℚ} {x : ℚ} (hx : x ∈ l) : listMin l ≤ x := by
  cases l with
  | nil => cases hx
  | cons y ys =>
      rcases List.mem_cons.mp hx with rfl | hx
      · exact foldl_min_le_init ys x
      · exact foldl_min_le_mem ys y x hx

theorem le_listMax {l : List ℚ} {x : ℚ} (hx : x ∈ l) : x ≤ listMax l := by
  cases l with
  | nil => cases hx
  | cons y ys =>
      rcases List.mem_cons.mp hx with rfl | hx
      · exact init_le_foldl_max ys x
      · exact mem_le_foldl_max ys y x hx

theorem foldl_max_mem (xs : List ℚ) (a : ℚ) :
    xs.foldl max a = a ∨ xs.foldl max a ∈ xs := by
  induction xs generalizing a with
  | nil => exact Or.inl rfl
  | cons y ys ih =>
      rcases ih (max a y) with h | h
      · rcases max_choice a y with hm | hm
        · exact Or.inl (h.trans hm)
        · exact Or.inr (by rw [List.mem_cons]; exact Or.inl (h.trans hm))
      · exact Or.inr (List.mem_cons.mpr (Or.inr h))

theorem foldl_min_mem (xs : List ℚ) (a : ℚ) :
    xs.foldl min a = a ∨ xs.foldl min a ∈ xs := by
  induction xs generalizing a with
  | nil => exact Or.inl rfl
  | cons y ys ih =>
      rcases ih (min a y) with h | h
      · rcases min_choice a y with hm | hm
        · exact Or.inl (h.trans hm)
        · exact Or.inr (by rw [List.mem_cons]; exact Or.inl (h.trans hm))
      · exact Or.inr (List.mem_cons.mpr (Or.inr h))

theorem listMax_mem {l : List ℚ} (h : l ≠ []) : listMax l ∈ l := by
  cases l with
  | nil => exact absurd rfl h
  | cons x xs =>
      rcases foldl_max_mem xs x with h' | h'
      · rw [listMax, h']; exact List.mem_cons_self x xs
      · rw [listMax]; exact List.mem_cons.mpr (Or.inr h')

theorem listMin_mem {l : List ℚ} (h : l ≠ []) : listMin l ∈ l := by
  cases l with
  | nil => exact absurd rfl h
  | cons x xs =>
      rcases foldl_min_mem xs x with h' | h'
      · rw [listMin, h']; exact List.mem_cons_self x xs
      · rw [listMin]; exact List.mem_cons.mpr (Or.inr h')

theorem foldl_add_eq (l : List ℚ) (a : ℚ) : l.foldl (· + ·) a = a + l.sum := by
  induction l generalizing a with
  | nil => simp
  | cons x xs ih =>
      rw [List.foldl_cons, ih (a + x), List.sum_cons]
      ring

theorem listSum_eq_sum (l : List ℚ) : listSum l = l.sum := by
  rw [listSum, foldl_add_eq, zero_add]

theorem listMin_le_avg {l : List ℚ} (h : l ≠ []) :
    listMin l ≤ listSum l / l.length := by
  have hl : (0 : ℚ) < l.length := by
    exact_mod_cast List.length_pos.mpr h
  rw [le_div_iff₀ hl, listSum_eq_sum]
  have := List.card_nsmul_le_sum l (listMin l) (fun x hx => listMin_le hx)
  rw [nsmul_eq_mul] at this
  linarith

theorem avg_le_listMax {l : List ℚ} (h : l ≠ []) :
    listSum l / l.length ≤ listMax l := by
  have hl : (0 : ℚ) < l.length := by
    exact_mod_cast List.length_pos.mpr h
  rw [div_le_iff₀ hl, listSum_eq_sum]
  have := List.sum_le_card_nsmul l (listMax l) (fun x hx => le_listMax hx)
  rw [nsmul_eq_mul] at this
  linarith

/-! ### Branch lemmas for `compute_main_target` -/

theorem compute_main_target_active {zones : List ZoneData} {mode : HvacMode}
    {f w mn mx : ℚ} (h0 : zonesNeedingActionOf mode zones ≠ []) :
    compute_main_target zones mode f w mn mx =
      (some (clampQ mn mx (round1 (if mode = .heat
        then listMax ((zonesNeedingActionOf mode zones).map
          (fun p => contribution mode f p.1 p.2))
        else listMin ((zonesNeedingActionOf mode zones).map
          (fun p => contribution mode f p.1 p.2))))), false) := by
  obtain ⟨p, ps, hp⟩ := List.exists_cons_of_ne_nil h0
  simp only [compute_main_target, hp]

theorem compute_main_target_holding {zones : List ZoneData} {mode : HvacMode}
    {f w mn mx : ℚ} (h0 : zonesNeedingActionOf mode zones = [])
    (h1 : zoneTargetsOf zones ≠ []) :
    compute_main_target zones mode f w mn mx =
      (some (clampQ mn mx (round1 (holdingInterp (zoneTargetsOf zones) w))), true) := by
  obtain ⟨t, ts, ht⟩ := List.exists_cons_of_ne_nil h1
  simp only [compute_main_target, h0, ht]

theorem compute_main_target_none {zones : List ZoneData} {mode : HvacMode}
    {f w mn mx : ℚ} (h0 : zonesNeedingActionOf mode zones = [])
    (h1 : zoneTargetsOf zones = []) :
    compute_main_target zones mode f w mn mx = (none, false) := by
  simp only [compute_main_target, h0, h1]

theorem rawMainTarget_active {zones : List ZoneData} {mode : HvacMode}
    {f w : ℚ} (h0 : zonesNeedingActionOf mode zones ≠ []) :
    rawMainTarget zones mode f w =
      some (if mode = .heat
        then listMax ((zonesNeedingActionOf mode zones).map
          (fun p => contribution mode f p.1 p.2))
        else listMin ((zonesNeedingActionOf mode zones).map
          (fun p => contribution mode f p.1 p.2))) := by
  obtain ⟨p, ps, hp⟩ := List.exists_cons_of_ne_nil h0
  simp only [rawMainTarget, hp]

theorem rawMainTarget_holding {zones : List ZoneData} {mode : HvacMode}
    {f w : ℚ} (h0 : zonesNeedingActionOf mode zones = [])
    (h1 : zoneTargetsOf zones ≠ []) :
    rawMainTarget zones mode f w = some (holdingInterp (zoneTargetsOf zones) w) := by
  obtain ⟨t, ts, ht⟩ := List.exists_cons_of_ne_nil h1
  simp only [rawMainTarget, h0, ht]

theorem rawMainTarget_none {zones : List ZoneData} {mode : HvacMode}
    {f w : ℚ} (h0 : zonesNeedingActionOf mode zones = [])
    (h1 : zoneTargetsOf zones = []) :
    rawMainTarget zones mode f w = none := by
  simp only [rawMainTarget, h0, h1]

/-! ### Properties of `holdingInterp` -/

theorem holdingInterp_at_50 (l : List ℚ) :
    holdingInterp l 50 = listSum l / l.length := by
  simp only [holdingInterp]
  norm_num

theorem holdingInterp_mono {l : List ℚ} (h : l ≠ []) {w₁ w₂ : ℚ} (hw : w₁ ≤ w₂) :
    holdingInterp l w₁ ≤ holdingInterp l w₂ := by
  have h1 : listMin l ≤ listSum l / l.length := listMin_le_avg h
  have h2 : listSum l / l.length ≤ listMax l := avg_le_listMax h
  simp only [holdingInterp]
  set mn := listMin l
  set mx := listMax l
  set avg := listSum l / (l.length : ℚ)
  split_ifs with b1 b2 b2
  · have : (avg - mn) * (w₁ / 50) ≤ (avg - mn) * (w₂ / 50) :=
      mul_le_mul_of_nonneg_left (by linarith) (by linarith)
    linarith
  · have hl : (avg - mn) * (w₁ / 50) ≤ (avg - mn) * 1 :=
      mul_le_mul_of_nonneg_left (by linarith) (by linarith)
    have hr : 0 ≤ (mx - avg) * ((w₂ - 50) / 50) :=
      mul_nonneg (by linarith) (by linarith)
    linarith
  · linarith
  · have : (mx - avg) * ((w₁ - 50) / 50) ≤ (mx - avg) * ((w₂ - 50) / 50) :=
      mul_le_mul_of_nonneg_left (by linarith) (by linarith)
    linarith

/-! ### Characterisations of the accumulated lists -/

theorem zonesNeedingActionOf_eq_nil_iff {mode : HvacMode} {zones : List ZoneData} :
    zonesNeedingActionOf mode zones = [] ↔
      ∀ z ∈ zones, ∀ c, z.current_temp = some c → needsModeAction mode z c = false := by
  simp only [zonesNeedingActionOf, List.filterMap_eq_nil_iff]
  constructor
  · intro h z hz c hc
    have hb := h z hz
    rw [hc] at hb
    simp only [Option.some_bind] at hb
    cases hn : needsModeAction mode z c with
    | false => rfl
    | true => rw [hn] at hb; simp at hb
  · intro h z hz
    cases hc : z.current_temp with
    | none => rfl
    | some c =>
      simp only [Option.some_bind]
      rw [h z hz c hc]
      simp

theorem zoneTargetsOf_ne_nil_iff {zones : List ZoneData} :
    zoneTargetsOf zones ≠ [] ↔ ∃ z ∈ zones, z.current_temp ≠ none := by
  rw [Ne, zoneTargetsOf, List.filterMap_eq_nil_iff]
  push_neg
  constructor
  · rintro ⟨z, hz, hne⟩
    exact ⟨z, hz, fun hn => hne (by rw [hn]; rfl)⟩
  · rintro ⟨z, hz, hne⟩
    refine ⟨z, hz, fun hn => hne ?_⟩
    exact Option.map_eq_none'.mp hn

theorem needsModeAction_of_mem_zonesNeedingActionOf {mode : HvacMode}
    {zones : List ZoneData} {z : ZoneData} {c : ℚ}
    (h : (z, c) ∈ zonesNeedingActionOf mode zones) :
    needsModeAction mode z c = true := by
  simp only [zonesNeedingActionOf, List.mem_filterMap] at h
  obtain ⟨a, _, hfa⟩ := h
  cases hct : a.current_temp with
  | none => rw [hct] at hfa; cases hfa
  | some c' =>
    rw [hct] at hfa
    simp only [Option.some_bind] at hfa
    cases hn : needsModeAction mode a c' with
    | false => rw [hn] at hfa; simp at hfa
    | true =>
      simp only [hn, if_true, Option.some_inj, Prod.mk.injEq] at hfa
      obtain ⟨rfl, rfl⟩ := hfa
      exact hn

/-! ### Branch lemmas for `calcDesiredMainTarget` -/

theorem calcDesiredMainTarget_active {zones : List ClimateZone} {mode : HvacMode}
    {f w mn mx : ℚ} (h0 : climNeedingOf mode zones ≠ []) :
    calcDesiredMainTarget zones mode f w mn mx =
      (some (clampQ mn mx (round1 (if mode = .heat
        then listMax ((climNeedingOf mode zones).map
          (fun p => climContribution f p.1 p.2))
        else listMin ((climNeedingOf mode zones).map
          (fun p => climContribution f p.1 p.2))))), false) := by
  obtain ⟨p, ps, hp⟩ := List.exists_cons_of_ne_nil h0
  simp only [calcDesiredMainTarget, hp]

theorem calcDesiredMainTarget_map_raw (zones : List ClimateZone) (mode : HvacMode)
    (f w mn mx : ℚ) :
    (calcDesiredMainTarget zones mode f w mn mx).1 =
      (rawCalcDesiredMainTarget zones mode f w).map
        (fun d => clampQ mn mx (round1 d)) := by
  cases hn : climNeedingOf mode zones with
  | cons p ps => simp only [calcDesiredMainTarget, rawCalcDesiredMainTarget, hn, Option.map]
  | nil =>
    cases ht : climTargetsOf zones with
    | nil => simp only [calcDesiredMainTarget, rawCalcDesiredMainTarget, hn, ht, Option.map]
    | cons t ts => simp only [calcDesiredMainTarget, rawCalcDesiredMainTarget, hn, ht, Option.map]

theorem compute_main_target_map_raw (zones : List ZoneData) (mode : HvacMode)
    (f w mn mx : ℚ) :
    (compute_main_target zones mode f w mn mx).1 =
      (rawMainTarget zones mode f w).map (fun d => clampQ mn mx (round1 d)) := by
  cases hn : zonesNeedingActionOf mode zones with
  | cons p ps => simp only [compute_main_target, rawMainTarget, hn, Option.map]
  | nil =>
    cases ht : zoneTargetsOf zones with
    | nil => simp only [compute_main_target, rawMainTarget, hn, ht, Option.map]
    | cons t ts => simp only [compute_main_target, rawMainTarget, hn, ht, Option.map]

/-! ### Claim theorems -/

/-- C7: the upstream setpoint update is never published when the read-back
current target of the main climate differs from the candidate by less than
the configured change threshold; the comparison uses the observed upstream
target when it is readable (ignoring the cached last-sent value), and falls
back to the cached value only when the read-back is unavailable. -/
theorem c7_setpoint_publish_gate (desired c l threshold : ℚ) (lastSent : Option ℚ) :
    (|desired - c| < threshold →
      shouldUpdateMain desired (some c) lastSent threshold = false)
    ∧ shouldUpdateMain desired (some c) lastSent threshold
        = shouldUpdateMain desired (some c) none threshold
    ∧ shouldUpdateMain desired none (some l) threshold
        = decide (threshold ≤ |desired - l|)
    ∧ shouldUpdateMain desired none none threshold = true := by
  refine ⟨fun h => ?_, rfl, rfl, rfl⟩
  simp only [shouldUpdateMain, decide_eq_false_iff_not]
  exact not_le.mpr h

/-- C7 witness: a 0.1-degree difference is below a 0.5-degree threshold, so
no update is published even though the cached value differs widely. -/
theorem c7_setpoint_publish_gate_witness :
    shouldUpdateMain 21 (some (209/10)) (some 15) (1/2) = false :=
  (c7_setpoint_publish_gate 21 (209/10) 0 (1/2) (some 15)).1
    (by rw [abs_lt]; constructor <;> norm_num)

/-- C9: when no zone has a current temperature (including the empty zone
list), `compute_main_target` returns setpoint `none` and
`is_holding_mode = false` (Active regime); the function is total, so no
error is possible. -/
theorem c9_no_data_yields_none (zones : List ZoneData) (mode : HvacMode)
    (f w mn mx : ℚ) (h : ∀ z ∈ zones, z.current_temp = none) :
    compute_main_target zones mode f w mn mx = (none, false) := by
  have h1 : zoneTargetsOf zones = [] := by
    simp only [zoneTargetsOf, List.filterMap_eq_nil_iff]
    intro z hz
    rw [h z hz]
    rfl
  have h0 : zonesNeedingActionOf mode zones = [] := by
    simp only [zonesNeedingActionOf, List.filterMap_eq_nil_iff]
    intro z hz
    rw [h z hz]
    rfl
  exact compute_main_target_none h0 h1

/-- C9 witness: a non-reporting zone and the empty list both yield
`(none, false)`. -/
theorem c9_no_data_yields_none_witness :
    compute_main_target [⟨"Z1", none, 20, 1, 0, false⟩] .heat (33/50) 50 5 30
      = (none, false)
    ∧ compute_main_target [] .heat (33/50) 50 5 30 = (none, false) := by
  constructor
  · exact c9_no_data_yields_none _ _ _ _ _ _ (by
      intro z hz
      rw [List.mem_singleton] at hz
      subst hz
      rfl)
  · exact c9_no_data_yields_none _ _ _ _ _ _ (by intro z hz; cases hz)

/-- C10: `compute_main_target` reports holding mode iff no reporting zone
needs action and at least one zone reports a temperature; and in holding
mode the returned setpoint is never `none`. -/
theorem c10_holding_mode_characterisation (zones : List ZoneData)
    (mode : HvacMode) (f w mn mx : ℚ) :
    ((compute_main_target zones mode f w mn mx).2 = true ↔
      ((∀ z ∈ zones, ∀ c, z.current_temp = some c →
          needsModeAction mode z c = false)
        ∧ ∃ z ∈ zones, z.current_temp ≠ none))
    ∧ ((compute_main_target zones mode f w mn mx).2 = true →
        (compute_main_target zones mode f w mn mx).1 ≠ none) := by
  by_cases h0 : zonesNeedingActionOf mode zones = []
  · by_cases h1 : zoneTargetsOf zones = []
    · rw [compute_main_target_none h0 h1]
      constructor
      · constructor
        · intro h
          exact absurd h (by simp)
        · rintro ⟨_, hex⟩
          exact absurd h1 (zoneTargetsOf_ne_nil_iff.mpr hex)
      · intro h
        exact absurd h (by simp)
    · rw [compute_main_target_holding h0 h1]
      constructor
      · constructor
        · intro _
          exact ⟨zonesNeedingActionOf_eq_nil_iff.mp h0,
            zoneTargetsOf_ne_nil_iff.mp h1⟩
        · intro _
          rfl
      · intro _
        simp
  · rw [compute_main_target_active h0]
    constructor
    · constructor
      · intro h
        exact absurd h (by simp)
      · rintro ⟨hall, _⟩
        exact absurd (zonesNeedingActionOf_eq_nil_iff.mpr hall) h0
    · intro h
      exact absurd h (by simp)

/-- C10 witness: a single satisfied zone yields holding mode with a
non-`none` setpoint, exercising both directions of the characterisation. -/
theorem c10_holding_mode_characterisation_witness :
    (compute_main_target [⟨"Z1", some 21, 21, 1/2, 0, true⟩] .heat (33/50) 50 5 30).1
      ≠ none := by
  refine (c10_holding_mode_characterisation
    [⟨"Z1", some 21, 21, 1/2, 0, true⟩] .heat (33/50) 50 5 30).2 ?_
  rw [compute_main_target_holding]
  · simp only [zonesNeedingActionOf, needsModeAction, lowerBound,
      List.filterMap_eq_nil_iff, List.mem_singleton]
    intro z hz
    subst hz
    norm_num
  · simp only [zoneTargetsOf, List.filterMap_cons, List.filterMap_nil]
    simp

/-- C2: with at least one zone needing action, `compute_main_target` returns
the Active regime and (after the always-applied one-decimal rounding and
clamping, C8) the maximum over the needing zones of
`target + factor * (target - current)` in heat mode, respectively the
minimum of `target - factor * (current - target)` in cool mode; Scenario A
evaluates to 24.0. -/
theorem c2_active_regime_setpoint (zones : List ZoneData) (f w mn mx : ℚ) :
    (perZoneDesiredMain .heat f zones ≠ [] →
      compute_main_target zones .heat f w mn mx
          = (some (clampQ mn mx (round1 (listMax (perZoneDesiredMain .heat f zones)))),
             false)
        ∧ listMax (perZoneDesiredMain .heat f zones) ∈ perZoneDesiredMain .heat f zones
        ∧ ∀ x ∈ perZoneDesiredMain .heat f zones,
            x ≤ listMax (perZoneDesiredMain .heat f zones))
    ∧ (perZoneDesiredMain .cool f zones ≠ [] →
      compute_main_target zones .cool f w mn mx
          = (some (clampQ mn mx (round1 (listMin (perZoneDesiredMain .cool f zones)))),
             false)
        ∧ listMin (perZoneDesiredMain .cool f zones) ∈ perZoneDesiredMain .cool f zones
        ∧ ∀ x ∈ perZoneDesiredMain .cool f zones,
            listMin (perZoneDesiredMain .cool f zones) ≤ x)
    ∧ compute_main_target
        [⟨"Z1", some 18, 20, 1/2, 0, true⟩, ⟨"Z2", some 19, 22, 1/2, 0, true⟩]
        .heat (33/50) 50 5 30 = (some 24, false) := by
  refine ⟨fun hne => ?_, fun hne => ?_, ?_⟩
  · have h0 : zonesNeedingActionOf .heat zones ≠ [] := by
      intro h
      exact hne (by rw [perZoneDesiredMain, h]; rfl)
    refine ⟨?_, listMax_mem hne, fun x hx => le_listMax hx⟩
    rw [compute_main_target_active h0]
    simp only [perZoneDesiredMain, if_pos rfl, if_true]
  · have h0 : zonesNeedingActionOf .cool zones ≠ [] := by
      intro h
      exact hne (by rw [perZoneDesiredMain, h]; rfl)
    refine ⟨?_, listMin_mem hne, fun x hx => listMin_le hx⟩
    rw [compute_main_target_active h0]
    rw [if_neg (by decide)]
    simp only [perZoneDesiredMain]
  · norm_num [compute_main_target, zoneTargetsOf, zonesNeedingActionOf,
      needsModeAction, lowerBound, upperBound, contribution,
      listMax, listMin, listSum, round1, roundHalfEven,
      clampQ, holdingInterp, List.filterMap_cons, List.filterMap_nil,
      Option.bind, List.foldl]

/-- C2 witness: Scenario A's zones both need heat, so the theorem's heat
branch applies and yields the rounded-and-clamped maximum contribution. -/
theorem c2_active_regime_setpoint_witness :
    compute_main_target
      [⟨"Z1", some 18, 20, 1/2, 0, true⟩, ⟨"Z2", some 19, 22, 1/2, 0, true⟩]
      .heat (33/50) 50 5 30
    = (some (clampQ 5 30 (round1 (listMax (perZoneDesiredMain .heat (33/50)
        [⟨"Z1", some 18, 20, 1/2, 0, true⟩, ⟨"Z2", some 19, 22, 1/2, 0, true⟩])))),
       false) :=
  ((c2_active_regime_setpoint
    [⟨"Z1", some 18, 20, 1/2, 0, true⟩, ⟨"Z2", some 19, 22, 1/2, 0, true⟩]
    (33/50) 50 5 30).1 (by
      norm_num [perZoneDesiredMain, zonesNeedingActionOf, needsModeAction,
        lowerBound, List.filterMap_cons, List.filterMap_nil, Option.bind]
      exact List.cons_ne_nil _ _)).1

/-- C3 counterexample: for three satisfied zones with targets 20.0, 21.25,
22.5 and blend 50, `compute_main_target` returns 21.2 (the mean 21.25 ties
at the second decimal and Python's banker's rounding takes it down), not
21.25 as the claim's example states. -/
theorem c3_scenario_b_counterexample :
    compute_main_target
      [⟨"Z1", some 20, 20, 1/2, 1/2, true⟩, ⟨"Z2", some (85/4), 85/4, 1/2, 1/2, true⟩,
       ⟨"Z3", some (45/2), 45/2, 1/2, 1/2, true⟩]
      .heat (33/50) 50 5 30 = (some (106/5), true) ∧ (106/5 : ℚ) ≠ 85/4 := by
  constructor
  · norm_num [compute_main_target, zoneTargetsOf, zonesNeedingActionOf,
      needsModeAction, lowerBound, upperBound, contribution,
      listMax, listMin, listSum, round1, roundHalfEven,
      clampQ, holdingInterp, List.filterMap_cons, List.filterMap_nil,
      Option.bind, List.foldl]
  · norm_num

/-- C3 amended: with no reporting zone needing action, the setpoint is the
blend interpolation `min + (avg-min)·(w/50)` for `w ≤ 50` and
`avg + (max-avg)·((w-50)/50)` otherwise, rounded to one decimal and clamped;
at `w = 50` the setpoint is within 0.05 of the arithmetic mean of the
reporting zones' targets (when the mean is inside the clamp range), and the
claim's example (targets 20.0, 21.25, 22.5, blend 50) yields 21.2, the mean
rounded half-to-even. -/
theorem c3_holding_blend_amended (zones : List ZoneData) (mode : HvacMode)
    (f mn mx w : ℚ) (h0 : zonesNeedingActionOf mode zones = [])
    (h1 : zoneTargetsOf zones ≠ []) :
    (compute_main_target zones mode f w mn mx
      = (some (clampQ mn mx (round1
          (if w ≤ 50 then
            listMin (zoneTargetsOf zones)
              + (listSum (zoneTargetsOf zones) / (zoneTargetsOf zones).length
                  - listMin (zoneTargetsOf zones)) * (w / 50)
          else
            listSum (zoneTargetsOf zones) / (zoneTargetsOf zones).length
              + (listMax (zoneTargetsOf zones)
                  - listSum (zoneTargetsOf zones) / (zoneTargetsOf zones).length)
                * ((w - 50) / 50)))), true))
    ∧ (w = 50 →
        mn ≤ listSum (zoneTargetsOf zones) / (zoneTargetsOf zones).length →
        listSum (zoneTargetsOf zones) / (zoneTargetsOf zones).length ≤ mx →
        ∀ v, (compute_main_target zones mode f w mn mx).1 = some v →
          |v - listSum (zoneTargetsOf zones) / (zoneTargetsOf zones).length| ≤ 1/20)
    ∧ compute_main_target
        [⟨"Z1", some 20, 20, 1/2, 1/2, true⟩, ⟨"Z2", some (85/4), 85/4, 1/2, 1/2, true⟩,
         ⟨"Z3", some (45/2), 45/2, 1/2, 1/2, true⟩]
        .heat (33/50) 50 5 30 = (some (106/5), true) := by
  have hc := @compute_main_target_holding zones mode f w mn mx h0 h1
  refine ⟨?_, ?_, ?_⟩
  · rw [hc]
    simp only [holdingInterp]
  · intro hw hmn hmx v hv
    rw [hc] at hv
    simp only [Option.some_inj] at hv
    subst hv
    rw [hw, holdingInterp_at_50]
    calc |clampQ mn mx (round1 (listSum (zoneTargetsOf zones) / (zoneTargetsOf zones).length))
            - listSum (zoneTargetsOf zones) / (zoneTargetsOf zones).length|
        ≤ |round1 (listSum (zoneTargetsOf zones) / (zoneTargetsOf zones).length)
            - listSum (zoneTargetsOf zones) / (zoneTargetsOf zones).length| :=
          abs_clampQ_sub_le hmn hmx _
      _ ≤ 1/20 := abs_round1_sub_le _
  · norm_num [compute_main_target, zoneTargetsOf, zonesNeedingActionOf,
      needsModeAction, lowerBound, upperBound, contribution,
      listMax, listMin, listSum, round1, roundHalfEven,
      clampQ, holdingInterp, List.filterMap_cons, List.filterMap_nil,
      Option.bind, List.foldl]

/-- C3 amended witness: three satisfied zones at blend 50 land within 0.05
of their mean 21.25 (the setpoint is 21.2). -/
theorem c3_holding_blend_amended_witness :
    |(106/5 : ℚ) - 85/4| ≤ 1/20 := by
  have h := (c3_holding_blend_amended
    [⟨"Z1", some 20, 20, 1/2, 1/2, true⟩, ⟨"Z2", some (85/4), 85/4, 1/2, 1/2, true⟩,
     ⟨"Z3", some (45/2), 45/2, 1/2, 1/2, true⟩] .heat (33/50) 5 30 50
    (by
      norm_num [zonesNeedingActionOf, needsModeAction, lowerBound,
        List.filterMap_cons, List.filterMap_nil, Option.bind])
    (by
      simp only [zoneTargetsOf, List.filterMap_cons, List.filterMap_nil]
      simp)).2.1 rfl
  have havg : listSum (zoneTargetsOf
      [⟨"Z1", some 20, 20, 1/2, 1/2, true⟩, ⟨"Z2", some (85/4), 85/4, 1/2, 1/2, true⟩,
       ⟨"Z3", some (45/2), 45/2, 1/2, 1/2, true⟩]) / (zoneTargetsOf
      [⟨"Z1", some 20, 20, 1/2, 1/2, true⟩, ⟨"Z2", some (85/4), 85/4, 1/2, 1/2, true⟩,
       ⟨"Z3", some (45/2), 45/2, 1/2, 1/2, true⟩]).length = 85/4 := by
    norm_num [zoneTargetsOf, listSum, List.filterMap_cons, List.filterMap_nil,
      List.foldl]
  rw [havg] at h
  refine h (by norm_num) (by norm_num) (106/5) ?_
  norm_num [compute_main_target, zoneTargetsOf, zonesNeedingActionOf,
    needsModeAction, lowerBound, upperBound, contribution,
    listMax, listMin, listSum, round1, roundHalfEven,
    clampQ, holdingInterp, List.filterMap_cons, List.filterMap_nil,
    Option.bind, List.foldl]

/-- C4: for fixed zones with no zone needing action and fixed clamp bounds,
the holding-regime setpoint is monotonically non-decreasing in the blend
weight on [0, 100]. -/
theorem c4_holding_setpoint_monotone_in_blend (zones : List ZoneData)
    (mode : HvacMode) (f mn mx w₁ w₂ v₁ v₂ : ℚ)
    (h0 : zonesNeedingActionOf mode zones = [])
    (h1 : zoneTargetsOf zones ≠ [])
    (hw0 : 0 ≤ w₁) (hw : w₁ < w₂) (hw1 : w₂ ≤ 100)
    (hv₁ : (compute_main_target zones mode f w₁ mn mx).1 = some v₁)
    (hv₂ : (compute_main_target zones mode f w₂ mn mx).1 = some v₂) :
    v₁ ≤ v₂ := by
  rw [compute_main_target_holding h0 h1] at hv₁ hv₂
  simp only [Option.some_inj] at hv₁ hv₂
  subst hv₁
  subst hv₂
  exact clampQ_mono mn mx (round1_mono (holdingInterp_mono h1 (le_of_lt hw)))

/-- C4 witness: two satisfied zones with targets 20 and 22; blend 30 gives
20.6 and blend 70 gives 21.4, and the theorem orders them. -/
theorem c4_holding_setpoint_monotone_in_blend_witness :
    (103/5 : ℚ) ≤ 107/5 := by
  refine c4_holding_setpoint_monotone_in_blend
    [⟨"Z1", some 20, 20, 1/2, 1/2, true⟩, ⟨"Z2", some 22, 22, 1/2, 1/2, true⟩]
    .heat (33/50) 5 30 30 70 (103/5) (107/5)
    (by
      norm_num [zonesNeedingActionOf, needsModeAction, lowerBound,
        List.filterMap_cons, List.filterMap_nil, Option.bind])
    (by
      simp only [zoneTargetsOf, List.filterMap_cons, List.filterMap_nil]
      simp)
    (by norm_num) (by norm_num) (by norm_num) ?_ ?_ <;>
  · norm_num [compute_main_target, zoneTargetsOf, zonesNeedingActionOf,
      needsModeAction, lowerBound, upperBound, contribution,
      listMax, listMin, listSum, round1, roundHalfEven,
      clampQ, holdingInterp, List.filterMap_cons, List.filterMap_nil,
      Option.bind, List.foldl]

/-- C8: every non-`none` setpoint of `compute_main_target` (core.py lines
125-128) and `_calculate_desired_main_target` (climate.py lines 794-797) is
the raw aggregate rounded to one decimal then clamped, and therefore lies
within `[main_min_temp, main_max_temp]` whenever the bounds are ordered. -/
theorem c8_setpoint_round_clamp (zones : List ZoneData)
    (czones : List ClimateZone) (mode : HvacMode) (f w mn mx : ℚ) :
    (compute_main_target zones mode f w mn mx).1
        = (rawMainTarget zones mode f w).map (fun d => clampQ mn mx (round1 d))
    ∧ (calcDesiredMainTarget czones mode f w mn mx).1
        = (rawCalcDesiredMainTarget czones mode f w).map
            (fun d => clampQ mn mx (round1 d))
    ∧ (mn ≤ mx → ∀ v, (compute_main_target zones mode f w mn mx).1 = some v →
        mn ≤ v ∧ v ≤ mx)
    ∧ (mn ≤ mx → ∀ v, (calcDesiredMainTarget czones mode f w mn mx).1 = some v →
        mn ≤ v ∧ v ≤ mx) := by
  refine ⟨compute_main_target_map_raw zones mode f w mn mx,
    calcDesiredMainTarget_map_raw czones mode f w mn mx, ?_, ?_⟩
  · intro hle v hv
    rw [compute_main_target_map_raw] at hv
    cases hr : rawMainTarget zones mode f w with
    | none => rw [hr] at hv; cases hv
    | some d =>
      rw [hr] at hv
      simp only [Option.map_some', Option.some_inj] at hv
      subst hv
      exact ⟨le_clampQ mn mx _, clampQ_le mn mx _ hle⟩
  · intro hle v hv
    rw [calcDesiredMainTarget_map_raw] at hv
    cases hr : rawCalcDesiredMainTarget czones mode f w with
    | none => rw [hr] at hv; cases hv
    | some d =>
      rw [hr] at hv
      simp only [Option.map_some', Option.some_inj] at hv
      subst hv
      exact ⟨le_clampQ mn mx _, clampQ_le mn mx _ hle⟩

/-- C8 witness: Scenario A's published setpoint 24.0 lies within the
configured clamp range [5, 30]. -/
theorem c8_setpoint_round_clamp_witness : (5:ℚ) ≤ 24 ∧ (24:ℚ) ≤ 30 :=
  (c8_setpoint_round_clamp
    [⟨"Z1", some 18, 20, 1/2, 0, true⟩, ⟨"Z2", some 19, 22, 1/2, 0, true⟩]
    [] .heat (33/50) 50 5 30).2.2.1 (by norm_num) 24 (by
      norm_num [compute_main_target, zoneTargetsOf, zonesNeedingActionOf,
        needsModeAction, lowerBound, upperBound, contribution,
        listMax, listMin, listSum, round1, roundHalfEven,
        clampQ, holdingInterp, List.filterMap_cons, List.filterMap_nil,
        Option.bind, List.foldl])

/-- C1: the two aggregation paths disagree on an Overheated zone in Heat
mode.  The issue's zone "Loznice" (current 21.9 °C, target 20.5 °C, opening
offset 0.5, closing offset 0) is Overheated; `compute_main_target` (core.py)
excludes it and reports Holding with setpoint 20.5, but
`_calculate_desired_main_target` (climate.py line 752 uses
`current < lower or current > upper`) includes it in the Active contribution
set and pulls the setpoint down to 19.6. -/
theorem c1_overheated_zone_divergence :
    calcDesiredMainTarget
      [⟨"Loznice", some (219/10), some "switch.loznice", 41/2, 1/2, 0⟩]
      .heat (33/50) 50 18 30 = (some (98/5), false)
    ∧ compute_main_target
      [⟨"Loznice", some (219/10), 41/2, 1/2, 0, false⟩]
      .heat (33/50) 50 18 30 = (some (41/2), true) := by
  constructor
  · norm_num [calcDesiredMainTarget, climNeedingOf, climReportingOf, climTargetsOf,
      climNeedsAction, climLowerBound, climUpperBound, climContribution,
      listMax, listMin, listSum, round1, roundHalfEven, clampQ, holdingInterp,
      List.filterMap_cons, List.filterMap_nil, List.filter_cons, List.filter_nil,
      Option.bind, List.foldl]
  · norm_num [compute_main_target, zoneTargetsOf, zonesNeedingActionOf,
      needsModeAction, lowerBound, upperBound, contribution,
      listMax, listMin, listSum, round1, roundHalfEven,
      clampQ, holdingInterp, List.filterMap_cons, List.filterMap_nil,
      Option.bind, List.foldl]

/-- C5: for a Satisfied zone in Active regime with an open valve whose
decision would otherwise be open, reaching the anticipation band
(`current ≥ upper - anticipation`) overrides the decision to closed and
stores `noReopenUntil = now + delay` iff `current < upper`; on a later pass
with the zone Underheated and the valve closed, the valve stays closed
while `now < noReopenUntil`, and the memory entry is deleted (and the valve
may open) once the window has elapsed. -/
theorem c5_anticipatory_close_and_suppression
    (c lower upper zone_target m t now anticipation delay : ℚ) :
    (lower ≤ c → c ≤ upper → m ≤ zone_target → upper - anticipation ≤ c →
      decideValveHeat c lower upper zone_target false (some m) true none
          now anticipation delay
        = (false, if c < upper then some (now + delay) else none))
    ∧ (∀ (ih : Bool) (d : Option ℚ), c < lower → now < t →
        decideValveHeat c lower upper zone_target ih d false (some t)
            now anticipation delay = (false, some t))
    ∧ (∀ (ih : Bool) (d : Option ℚ), c < lower → t ≤ now →
        decideValveHeat c lower upper zone_target ih d false (some t)
            now anticipation delay = (true, none)) := by
  refine ⟨fun h1 h2 h3 h4 => ?_, fun ih d hc ht => ?_, fun ih d hc ht => ?_⟩
  · have hs : zoneStatus .heat c lower upper = .satisfied := by
      simp only [zoneStatus]
      rw [if_neg (not_lt.mpr h1), if_neg (not_lt.mpr h2)]
    simp only [decideValveHeat, hs, decide_eq_true h3, Bool.false_eq_true,
      if_false, Bool.and_self, if_true, if_pos h4]
    split_ifs <;> rfl
  · have hs : zoneStatus .heat c lower upper = .underheated := by
      simp only [zoneStatus]
      rw [if_pos hc]
    simp only [decideValveHeat, hs, if_pos ht]
  · have hs : zoneStatus .heat c lower upper = .underheated := by
      simp only [zoneStatus]
      rw [if_pos hc]
    simp only [decideValveHeat, hs, if_neg (not_lt.mpr ht)]

/-- C5 witness: at 20.9 °C in a satisfied 20–21 °C band with anticipation
0.2, the open valve closes early and records `noReopenUntil = 1180`; at
19 °C (underheated) the closed valve stays closed at time 1100 < 1180, and
reopens with the entry deleted at time 1200 ≥ 1180. -/
theorem c5_anticipatory_close_and_suppression_witness :
    decideValveHeat (209/10) 20 21 21 false (some (41/2)) true none 1000 (1/5) 180
      = (false, some 1180)
    ∧ decideValveHeat 19 20 21 21 false (some (41/2)) false (some 1180) 1100 (1/5) 180
      = (false, some 1180)
    ∧ decideValveHeat 19 20 21 21 false (some (41/2)) false (some 1180) 1200 (1/5) 180
      = (true, none) := by
  refine ⟨?_, ?_, ?_⟩
  · have h := (c5_anticipatory_close_and_suppression (209/10) 20 21 21 (41/2)
      1180 1000 (1/5) 180).1 (by norm_num) (by norm_num) (by norm_num) (by norm_num)
    rw [h, if_pos (by norm_num : (209/10 : ℚ) < 21)]
    norm_num
  · exact (c5_anticipatory_close_and_suppression 19 20 21 21 (41/2)
      1180 1100 (1/5) 180).2.1 false (some (41/2)) (by norm_num) (by norm_num)
  · exact (c5_anticipatory_close_and_suppression 19 20 21 21 (41/2)
      1180 1200 (1/5) 180).2.2 false (some (41/2)) (by norm_num) (by norm_num)

/-- C6: in every control pass the plan opens before it closes (it splits
into a close-free prefix and an open-free suffix and begins by cancelling
any pending deferred close); when some valve is actually being opened while
the currently-open count is at or below the minimum-open floor, the closes
are not issued as `turnOff` commands but as one cancellable `deferClose`
batch delayed by the transition delay; otherwise every close is issued
immediately and nothing is deferred. -/
theorem c6_scheduler_pump_safety (toOn toOff : List String)
    (cur : List (String × Bool)) (minOpen : ℕ) (delay : ℚ) :
    (∃ pre post, schedulePlan toOn toOff cur minOpen delay = pre ++ post
      ∧ (∀ cmd ∈ pre, cmd.isCloseCmd = false)
      ∧ (∀ cmd ∈ post, cmd.isOpenCmd = false))
    ∧ (valvesActuallyTurningOn toOn cur ≠ [] →
        currentlyOpenCount cur ≤ minOpen →
        valvesActuallyTurningOff toOff cur ≠ [] →
        VCmd.deferClose delay (valvesActuallyTurningOff toOff cur)
            ∈ schedulePlan toOn toOff cur minOpen delay
        ∧ ∀ v, VCmd.turnOff v ∉ schedulePlan toOn toOff cur minOpen delay)
    ∧ ((minOpen < currentlyOpenCount cur ∨ valvesActuallyTurningOn toOn cur = []) →
        (∀ v ∈ valvesActuallyTurningOff toOff cur,
          VCmd.turnOff v ∈ schedulePlan toOn toOff cur minOpen delay)
        ∧ ∀ d vs, VCmd.deferClose d vs ∉ schedulePlan toOn toOff cur minOpen delay)
    ∧ (schedulePlan toOn toOff cur minOpen delay).head? = some VCmd.cancelPending := by
  refine ⟨?_, ?_, ?_, rfl⟩
  · refine ⟨VCmd.cancelPending :: (valvesActuallyTurningOn toOn cur).map VCmd.turnOn,
      (if (valvesActuallyTurningOff toOff cur).isEmpty then []
       else if needsDelay toOn cur minOpen then
         [VCmd.deferClose delay (valvesActuallyTurningOff toOff cur)]
       else (valvesActuallyTurningOff toOff cur).map VCmd.turnOff), rfl, ?_, ?_⟩
    · intro cmd hcmd
      rcases List.mem_cons.mp hcmd with rfl | hcmd
      · rfl
      · obtain ⟨v, _, rfl⟩ := List.mem_map.mp hcmd
        rfl
    · intro cmd hcmd
      split_ifs at hcmd
      · cases hcmd
      · rw [List.mem_singleton] at hcmd
        subst hcmd
        rfl
      · obtain ⟨v, _, rfl⟩ := List.mem_map.mp hcmd
        rfl
  · intro h1 h2 h3
    obtain ⟨a, as, ha⟩ := List.exists_cons_of_ne_nil h1
    obtain ⟨b, bs, hb⟩ := List.exists_cons_of_ne_nil h3
    have hnd : needsDelay toOn cur minOpen = true := by
      simp only [needsDelay, ha, List.isEmpty_cons, Bool.not_false, Bool.true_and,
        decide_eq_true_eq]
      exact h2
    have hplan : schedulePlan toOn toOff cur minOpen delay
        = VCmd.cancelPending :: ((valvesActuallyTurningOn toOn cur).map VCmd.turnOn
            ++ [VCmd.deferClose delay (valvesActuallyTurningOff toOff cur)]) := by
      simp only [schedulePlan, hnd, if_true, hb, List.isEmpty_cons, Bool.false_eq_true,
        if_false]
    constructor
    · rw [hplan]
      exact List.mem_cons.mpr (Or.inr (List.mem_append.mpr (Or.inr
        (List.mem_singleton.mpr rfl))))
    · intro v hv
      rw [hplan] at hv
      rcases List.mem_cons.mp hv with h | hv
      · cases h
      · rcases List.mem_append.mp hv with hv | hv
        · obtain ⟨x, _, hx⟩ := List.mem_map.mp hv
          cases hx
        · rw [List.mem_singleton] at hv
          cases hv
  · intro h
    have hnd : needsDelay toOn cur minOpen = false := by
      rcases h with h | h
      · simp only [needsDelay, Bool.and_eq_false_eq_eq_false_or_eq_false,
          decide_eq_false_iff_not, not_le]
        exact Or.inr h
      · simp only [needsDelay, h, List.isEmpty_nil, Bool.not_true, Bool.false_and]
    cases hoff : valvesActuallyTurningOff toOff cur with
    | nil =>
      constructor
      · intro v hv
        cases hv
      · intro d vs hmem
        simp only [schedulePlan, hoff, List.isEmpty_nil, if_true, List.append_nil] at hmem
        rcases List.mem_cons.mp hmem with h' | hmem
        · cases h'
        · obtain ⟨x, _, hx⟩ := List.mem_map.mp hmem
          cases hx
    | cons b bs =>
      have hplan : schedulePlan toOn toOff cur minOpen delay
          = VCmd.cancelPending :: ((valvesActuallyTurningOn toOn cur).map VCmd.turnOn
              ++ (b :: bs).map VCmd.turnOff) := by
        simp only [schedulePlan, hnd, hoff, List.isEmpty_cons, Bool.false_eq_true,
          if_false]
      constructor
      · intro v hv
        rw [hplan]
        exact List.mem_cons.mpr (Or.inr (List.mem_append.mpr (Or.inr
          (List.mem_map.mpr ⟨v, hv, rfl⟩))))
      · intro d vs hmem
        rw [hplan] at hmem
        rcases List.mem_cons.mp hmem with h' | hmem
        · cases h'
        · rcases List.mem_append.mp hmem with hmem | hmem <;>
          · obtain ⟨x, _, hx⟩ := List.mem_map.mp hmem
            cases hx

/-- C6 witness: replacing the single open valve "v2" by "v1" at the
minimum-open floor defers the close of "v2"; with the floor at 0 the close
is immediate. -/
theorem c6_scheduler_pump_safety_witness :
    (VCmd.deferClose 180 ["v2"]
        ∈ schedulePlan ["v1"] ["v2"] [("v1", false), ("v2", true)] 1 180
      ∧ ∀ v, VCmd.turnOff v ∉ schedulePlan ["v1"] ["v2"] [("v1", false), ("v2", true)] 1 180)
    ∧ VCmd.turnOff "v2" ∈ schedulePlan ["v1"] ["v2"] [("v1", false), ("v2", true)] 0 180 := by
  constructor
  · refine (c6_scheduler_pump_safety ["v1"] ["v2"] [("v1", false), ("v2", true)] 1 180).2.1
      ?_ ?_ ?_
    · simp [valvesActuallyTurningOn, lookupValve]
    · simp [currentlyOpenCount]
    · simp [valvesActuallyTurningOff, lookupValve]
  · refine ((c6_scheduler_pump_safety ["v1"] ["v2"] [("v1", false), ("v2", true)] 0 180).2.2.1
      ?_).1 "v2" ?_
    · left
      simp [currentlyOpenCount]
    · simp [valvesActuallyTurningOff, lookupValve]

end MZH
